import Mathlib

/-!
Verification of the rss-reader repository against its specification.

Part A models the backend-process supervisor described in the spec
(sections 2-8).  The supervisor itself is not among this repository
source files (src only contains the database, RSS and UI-command glue
that the spec lists as external collaborators), so every definition in
Part A is modelled from the words of the spec and says so in its doc comment.

Part B embeds the relevant functions of src/src-tauri/src/rss.rs and
src/src-tauri/src/db.rs: `create_summary`, `fetch_and_save_feed` and
`get_articles`, over a list model of the SQLite `articles` table.
-/

namespace RssReader

/-! ## Part A: the supervisor (modelled from the spec) -/

/-- Modelled from the spec: the error taxonomy of section 7 for the
supervisor, which is missing from src (`HandshakeTimeout`, `SpawnFailure`,
`LimitExceeded`, `NotReady`). -/
inductive SupError where
  | notReady
  | handshakeTimeout
  | spawnFailure
  | limitExceeded
deriving DecidableEq, Repr

/-- Modelled from the spec: the result type of `start()` / `restart()` /
`currentPort()` — a port on success, a `SupError` on failure. -/
inductive SupResult where
  | ok (p : Nat)
  | err (e : SupError)
deriving DecidableEq, Repr

/-- Modelled from the spec: the Supervisor State record of section 3
\x7bcurrent port, process handle, restart counter\x7d for the supervisor that
is missing from src.  `handles` is the list of owned worker handles
(process ids) — the invariant in the spec says it has at most one element;
`alive` says whether the owned process is still running; `handshakeDone`
says whether the owned process completed its handshake; `failed` is the
terminal per-episode state entered when the restart ceiling is exceeded. -/
structure SupState where
  handles : List Nat
  alive : Bool
  handshakeDone : Bool
  port : Option Nat
  restartCount : Nat
  failed : Bool
deriving DecidableEq, Repr

/-- Modelled from the spec: surrounding whitespace tolerated around the
`PORT:<n>` announcement line. -/
def isWS (c : Char) : Bool :=
  c = ' ' || c = '\t' || c = '\n' || c = '\r'

/-- Modelled from the spec: trimming of optional surrounding whitespace on
a handshake line. -/
def trimChars (l : List Char) : List Char :=
  (((l.dropWhile isWS).reverse.dropWhile isWS)).reverse

/-- Modelled from the spec: the recognized marker announcing the port. -/
def portMarker : List Char := ['P', 'O', 'R', 'T', ':']

/-- Numeric value of a decimal digit string. -/
def digitsVal (ds : List Char) : Nat :=
  ds.foldl (fun acc c => acc * 10 + (c.toNat - 48)) 0

/-- Modelled from the spec: the parser of the Handshake Reader for one stdout
line (section 4.2): after trimming optional whitespace the line must start
with `PORT:` followed by a non-empty digit string whose value fits in 16
bits; anything else is not a handshake line. -/
def parsePortLine (l : List Char) : Option Nat :=
  if (trimChars l).take 5 = portMarker then
    if ((trimChars l).drop 5).isEmpty then none
    else if ((trimChars l).drop 5).all Char.isDigit then
      if digitsVal ((trimChars l).drop 5) ≤ 65535 then
        some (digitsVal ((trimChars l).drop 5))
      else none
    else none
  else none

/-- Modelled from the spec: the effect of one stdout line on the
supervisor state — a valid announcement installs the port, every other
line is forwarded to diagnostics and leaves the state unchanged. -/
def readerUpdate (st : SupState) (l : List Char) : SupState :=
  match parsePortLine l with
  | some p => { st with port := some p, handshakeDone := true }
  | none => st

/-- Modelled from the spec: the outcome of one launch attempt, as decided
by the environment (worker binary and OS): a successful handshake with a
port, a handshake timeout (no valid line within the deadline, or EOF),
or a spawn failure (binary missing / not executable). -/
inductive LaunchOutcome where
  | ok (p : Nat)
  | handshakeTimeout
  | spawnFail
deriving DecidableEq, Repr

/-- Whether a launch outcome is a successful handshake. -/
def launchOk : LaunchOutcome → Bool
  | .ok _ => true
  | _ => false

/-- Modelled from the spec: the fixed 10-second handshake deadline. -/
def handshakeDeadlineMs : Nat := 10000

/-- Modelled from the spec: the scan the Handshake Reader makes of the worker
timed stdout lines (arrival time in ms, line): the first in-deadline line
that parses as a valid port announcement wins; EOF or the deadline ends
the scan with no port. -/
def handshakeScan : List (Nat × List Char) → Option Nat
  | [] => none
  | (t, l) :: rest =>
    if t ≤ handshakeDeadlineMs then
      match parsePortLine l with
      | some p => some p
      | none => handshakeScan rest
    else none

/-- Modelled from the spec: the launch outcome a given timed stdout
stream produces (spawn succeeded; handshake succeeds or times out). -/
def outcomeOfLines (lines : List (Nat × List Char)) : LaunchOutcome :=
  match handshakeScan lines with
  | some p => .ok p
  | none => .handshakeTimeout

/-- Modelled from the spec: the observable side effects of one supervisor
operation — which process ids were spawned, killed (always via a hard
kill), gracefully signalled (the spec forbids this, so the model records
it separately to state that it never happens), waited on, and the result
returned to the caller, if any. -/
structure Effects where
  spawned : List Nat
  killed : List Nat
  graceful : List Nat
  waited : List Nat
  result : Option SupResult
deriving DecidableEq, Repr

/-- The empty side-effect record. -/
def noEffects : Effects := ⟨[], [], [], [], none⟩

/-- Modelled from the spec: the restart ceiling (5). -/
def restartCeiling : Nat := 5

/-- Modelled from the spec: the `currentPort()` query — the port of the
most recent successful handshake, or `NotReady`. -/
def currentPort (st : SupState) : SupResult :=
  match st.port with
  | some p => .ok p
  | none => .err .notReady

/-- Modelled from the spec: `Launcher.start()` (section 4.1).  Any
previous handle is killed, waited on and replaced (never leaked).  On a
successful handshake the new handle and its port are installed.  On a
handshake timeout the process was spawned and then killed at the
deadline, so a dead handle is owned and no port is present.  On a spawn
failure no process exists. -/
def stepStart (st : SupState) (pid : Nat) (o : LaunchOutcome) : SupState × Effects :=
  match o with
  | .ok p =>
    ({ st with handles := [pid], alive := true, handshakeDone := true, port := some p },
     ⟨[pid], st.handles, [], st.handles, some (.ok p)⟩)
  | .handshakeTimeout =>
    ({ st with handles := [pid], alive := false, handshakeDone := false, port := none },
     ⟨[pid], st.handles ++ [pid], [], st.handles, some (.err .handshakeTimeout)⟩)
  | .spawnFail =>
    ({ st with handles := [], alive := false, handshakeDone := false, port := none },
     ⟨[], st.handles, [], st.handles, some (.err .spawnFailure)⟩)

/-- Modelled from the spec: the Restart Policy (section 4.5).  The
incremented counter is checked against the ceiling: beyond it the call
returns `LimitExceeded` at once, spawning nothing and marking the episode
terminally failed; otherwise the incremented counter is stored and the
Launcher is invoked (which reaps any stale handle). -/
def restartPolicy (st : SupState) (pid : Nat) (o : LaunchOutcome) : SupState × Effects :=
  if st.restartCount + 1 > restartCeiling then
    ({ st with failed := true }, ⟨[], [], [], [], some (.err .limitExceeded)⟩)
  else
    stepStart { st with restartCount := st.restartCount + 1 } pid o

/-- Modelled from the spec: one Health Monitor tick (section 4.4).  A
terminally failed episode is left alone; with no handle or a live handle
nothing happens; a dead handle is a detected crash: the counter resets to
zero if the episode had reached confirmed health (port was set), the port
is cleared before anything else, and the Restart Policy runs. -/
def healthTick (st : SupState) (pid : Nat) (o : LaunchOutcome) : SupState × Effects :=
  if st.failed then (st, noEffects)
  else if st.handles.isEmpty then (st, noEffects)
  else if st.alive then (st, noEffects)
  else
    restartPolicy
      { (if st.port.isSome then { st with restartCount := 0 } else st) with
        port := none, handshakeDone := false } pid o

/-- Modelled from the spec: deliberate teardown (sections 5 and 6): the
owned process is killed — never gracefully signalled — and waited on, and
the state is cleared. -/
def stopSup (st : SupState) : SupState × Effects :=
  ({ st with handles := [], alive := false, handshakeDone := false, port := none },
   ⟨[], st.handles, [], st.handles, none⟩)

/-- Modelled from the spec: the events driving the supervisor: an
external `start()` call, the owned process dying, a Health Monitor tick,
and an external stop.  `pid` is the OS process id a spawn would get and
`o` the environment-chosen outcome of a launch attempt. -/
inductive Event where
  | start (pid : Nat) (o : LaunchOutcome)
  | procExit
  | tick (pid : Nat) (o : LaunchOutcome)
  | stop
deriving DecidableEq, Repr

/-- Whether an event contains a successful handshake. -/
def eventLaunchOk : Event → Bool
  | .start _ o => launchOk o
  | .tick _ o => launchOk o
  | _ => false

/-- Modelled from the spec: the transition function of the supervisor. -/
def step (st : SupState) : Event → SupState × Effects
  | .start pid o => stepStart st pid o
  | .procExit =>
    (if st.handles.isEmpty then st else { st with alive := false }, noEffects)
  | .tick pid o => healthTick st pid o
  | .stop => stopSup st

/-- Modelled from the spec: the state before the first `start()`. -/
def initState : SupState := ⟨[], false, false, none, 0, false⟩

/-- The state after a sequence of events, starting from `initState`. -/
def runEvents (t : List Event) : SupState :=
  t.foldl (fun s e => (step s e).1) initState

/-- A state the supervisor can actually be in. -/
def Reachable (st : SupState) : Prop :=
  ∃ t, runEvents t = st

/-- The structural invariant of the spec (section 3): at most one worker
handle is owned at a time, and a port is present exactly when a handle is
owned and its handshake completed. -/
def SupInv (st : SupState) : Prop :=
  st.handles.length ≤ 1 ∧
    (st.port.isSome = true ↔ (st.handles.isEmpty = false ∧ st.handshakeDone = true))

/-! ## Part B: embeddings of rss.rs and db.rs

Strings are modelled as lists of chars (the chars of the Rust `String`);
byte positions are recovered through the UTF-8 size of each char.  The
SQLite `articles` table is modelled as a list of `Article` rows, in
insertion order. -/

/-- the Rust function `char::is_whitespace` (the Unicode White_Space property),
used by `str::split_whitespace` in `create_summary`. -/
def rustIsWhitespace (c : Char) : Bool :=
  c.toNat = 0x09 || c.toNat = 0x0A || c.toNat = 0x0B || c.toNat = 0x0C ||
  c.toNat = 0x0D || c.toNat = 0x20 || c.toNat = 0x85 || c.toNat = 0xA0 ||
  c.toNat = 0x1680 || (0x2000 ≤ c.toNat && c.toNat ≤ 0x200A) ||
  c.toNat = 0x2028 || c.toNat = 0x2029 || c.toNat = 0x202F ||
  c.toNat = 0x205F || c.toNat = 0x3000

/-- rss.rs `create_summary`, first step: `html.replace(|c| c == '<' || c == '>', " ")`
replaces each `<` and `>` char with one space. -/
def stripTags (l : List Char) : List Char :=
  l.map (fun c => if c = '<' || c = '>' then ' ' else c)

/-- Accumulator worker for `splitWS`; `acc` holds the current word,
reversed. -/
def splitWSGo : List Char → List Char → List (List Char)
  | [], acc => if acc.isEmpty then [] else [acc.reverse]
  | c :: cs, acc =>
    if rustIsWhitespace c then
      if acc.isEmpty then splitWSGo cs [] else acc.reverse :: splitWSGo cs []
    else splitWSGo cs (c :: acc)

/-- the Rust function `str::split_whitespace`: the maximal non-whitespace runs. -/
def splitWS (l : List Char) : List (List Char) :=
  splitWSGo l []

/-- the Rust function `Vec::join(" ")`: the words separated by single spaces. -/
def joinSpace : List (List Char) → List Char
  | [] => []
  | [w] => w
  | w :: ws => w ++ ' ' :: joinSpace ws

/-- Byte length of the UTF-8 encoding of the string, the Rust function `str::len`. -/
def utf8Len (l : List Char) : Nat :=
  (l.map Char.utf8Size).sum

/-- the Rust function byte slice `&text[..n]`: the chars covering exactly the first
`n` bytes, or `none` — a panic — when byte index `n` does not fall on a
char boundary (or past the end). -/
def takeBytes : List Char → Nat → Option (List Char)
  | _, 0 => some []
  | [], _ + 1 => none
  | c :: cs, n + 1 =>
    if c.utf8Size ≤ n + 1 then (takeBytes cs (n + 1 - c.utf8Size)).map (c :: ·)
    else none

/-- rss.rs `create_summary`: strip `<`/`>`, keep the first 100
whitespace-separated words joined by spaces, and if the joined text
exceeds 200 bytes append `...` to its first 200 bytes.  The result is
`none` when the Rust code panics (the byte slice `&text[..200]` with 200
not on a char boundary). -/
def create_summary (html : List Char) : Option (List Char) :=
  if utf8Len (joinSpace ((splitWS (stripTags html)).take 100)) > 200 then
    (takeBytes (joinSpace ((splitWS (stripTags html)).take 100)) 200).map
      (· ++ ['.', '.', '.'])
  else some (joinSpace ((splitWS (stripTags html)).take 100))

/-- db.rs `Article`: one row of the `articles` table. -/
structure Article where
  id : String
  feed_id : String
  title : String
  link : String
  content : String
  summary : Option String
  author : Option String
  pub_date : Option Int
  is_read : Int
  is_starred : Int
  fetched_at : Int
deriving DecidableEq, Repr

/-- rss.rs `fetch_and_save_feed`, the `SELECT link, 1 FROM articles WHERE
feed_id = ?` snapshot: the links already present for the feed. -/
def existingLinks (table : List Article) (fid : String) : List String :=
  (table.filter (fun a => a.feed_id == fid)).map (fun a => a.link)

/-- rss.rs `fetch_and_save_feed`, the save loop: the network fetch is
abstracted into the `fetched` argument and the database into `table`.
The set of existing links is computed once, before the loop; each fetched
article whose link is not in that snapshot is given the feed id and
inserted (the `INSERT OR IGNORE` never ignores: `id` is a fresh UUID and
the table has no other uniqueness constraint), and counted.  Returns the
table after the call and the saved count. -/
def fetch_and_save_feed (table : List Article) (fid : String)
    (fetched : List Article) : List Article × Nat :=
  fetched.foldl
    (fun acc a =>
      if (existingLinks table fid).contains a.link then acc
      else (acc.1 ++ [{ a with feed_id := fid }], acc.2 + 1))
    (table, 0)

/-- db.rs `get_articles`: one entry of the `conditions` vector. -/
inductive Cond where
  | feedEq (f : String)
  | readZero
  | starredOne
deriving DecidableEq, Repr

/-- db.rs `get_articles`: the `conditions` vector built from the optional
`feed_id` and `filter` arguments; any filter other than `"unread"` and
`"starred"` adds nothing. -/
def conds (fid filt : Option String) : List Cond :=
  (match fid with
   | some f => [Cond.feedEq f]
   | none => []) ++
  (match filt with
   | some s =>
     if s == "unread" then [Cond.readZero]
     else if s == "starred" then [Cond.starredOne]
     else []
   | none => [])

/-- Truth of one SQL condition on a row. -/
def evalCond (a : Article) : Cond → Bool
  | .feedEq f => a.feed_id == f
  | .readZero => a.is_read == 0
  | .starredOne => a.is_starred == 1

/-- A row satisfies the WHERE clause iff it satisfies every condition. -/
def matchesRow (fid filt : Option String) (a : Article) : Bool :=
  (conds fid filt).all (evalCond a)

/-- `ORDER BY pub_date DESC` comparison; SQLite sorts NULLs last under
DESC, so a NULL `pub_date` compares below every value. -/
def pdGe (x y : Article) : Bool :=
  match x.pub_date, y.pub_date with
  | some a, some b => b ≤ a
  | some _, none => true
  | none, some _ => false
  | none, none => true

/-- Insertion into a descending-sorted list. -/
def insGe (a : Article) : List Article → List Article
  | [] => [a]
  | b :: bs => if pdGe a b then a :: b :: bs else b :: insGe a bs

/-- `ORDER BY pub_date DESC` as an insertion sort. -/
def sortDesc : List Article → List Article
  | [] => []
  | a :: rest => insGe a (sortDesc rest)

/-- db.rs `get_articles` over the table model: filter by the built
conditions, order by `pub_date DESC`, then apply `LIMIT ? OFFSET ?` with
SQLite semantics — a negative OFFSET acts as 0 (`Int.toNat` does
exactly that) and a negative LIMIT means no upper bound. -/
def get_articles (table : List Article) (fid filt : Option String)
    (limit offs : Int) : List Article :=
  if limit < 0 then
    (sortDesc (table.filter (matchesRow fid filt))).drop offs.toNat
  else
    ((sortDesc (table.filter (matchesRow fid filt))).drop offs.toNat).take limit.toNat

/-! ## Concrete states, traces and rows used by witnesses -/

/-- A healthy running supervisor state: one live handle, handshake done. -/
def exRun : SupState := ⟨[9], true, true, some 8080, 2, false⟩

/-- A crashed-before-health state: a dead handle, no port, counter 3. -/
def exDead : SupState := ⟨[9], false, false, none, 3, false⟩

/-- A crashed-after-health state: a dead handle but the port of the last
successful handshake still installed (crash not yet detected). -/
def exDeadHealthy : SupState := ⟨[9], false, true, some 8080, 3, false⟩

/-- A crashed state whose counter already sits at the ceiling. -/
def exFull : SupState := ⟨[9], false, false, none, 5, false⟩

/-- A terminally failed episode. -/
def exFailed : SupState := ⟨[9], false, false, none, 5, true⟩

/-- A startup crash loop: the first launch times out and five automatic
restarts all time out as well, leaving the counter at the ceiling with a
dead handle — the next detected crash is the sixth consecutive one. -/
def crashLoopTrace : List Event :=
  [.start 1 .handshakeTimeout, .tick 2 .handshakeTimeout, .tick 3 .handshakeTimeout,
   .tick 4 .handshakeTimeout, .tick 5 .handshakeTimeout, .tick 6 .handshakeTimeout]

/-- The crash,crash,crash,(healthy),crash,crash scenario: three
startup crashes, then a restart that reaches confirmed health (port
8080), then the worker dies and two more restarts time out — the next
detected crash is the sixth overall. -/
def healthyCrashTrace : List Event :=
  [.start 1 .handshakeTimeout, .tick 2 .handshakeTimeout, .tick 3 .handshakeTimeout,
   .tick 4 (.ok 8080), .procExit, .tick 5 .handshakeTimeout, .tick 6 .handshakeTimeout]

/-- A fetched article with link "L" and no feed id yet. -/
def exArt : Article := ⟨"id1", "", "t", "L", "c", none, none, some 5, 0, 0, 0⟩

/-- A stored article of feed "f", unread, starred. -/
def exArt2 : Article := ⟨"id2", "f", "t", "L2", "c", none, none, some 7, 0, 1, 0⟩

/-! ## Helper lemmas -/

theorem dropWhile_append_of_forall {l₁ l₂ : List Char} (h : ∀ c ∈ l₁, isWS c = true) :
    (l₁ ++ l₂).dropWhile isWS = l₂.dropWhile isWS := by
  induction l₁ with
  | nil => rfl
  | cons c cs ih =>
    rw [List.cons_append, List.dropWhile_cons, h c (List.mem_cons_self c cs)]
    exact ih fun d hd => h d (List.mem_cons_of_mem c hd)

theorem dropWhile_cons_of_false {c : Char} {l : List Char} (h : isWS c = false) :
    (c :: l).dropWhile isWS = c :: l := by
  rw [List.dropWhile_cons, h]
  rfl

theorem not_ws_of_digit {c : Char} (h : c.isDigit = true) : isWS c = false := by
  cases hws : isWS c with
  | false => rfl
  | true =>
    exfalso
    simp only [isWS, Bool.or_eq_true, decide_eq_true_eq] at hws
    rcases hws with ((h1 | h1) | h1) | h1 <;> subst h1 <;> exact absurd h (by decide)

theorem take5_marker (ds : List Char) : (portMarker ++ ds).take 5 = portMarker := rfl

theorem drop5_marker (ds : List Char) : (portMarker ++ ds).drop 5 = ds := rfl

/-! ## Claims -/

/-- C1: every line of the form `PORT:<digits>` with value at most 65535,
optionally surrounded by whitespace, parses to exactly that value; and a
line that does not parse leaves the supervisor state (in particular the
current port) unchanged. -/
theorem c1_port_line_parsing :
    (∀ ws₁ ws₂ ds : List Char,
        (∀ c ∈ ws₁, isWS c = true) → (∀ c ∈ ws₂, isWS c = true) →
        ds ≠ [] → (∀ c ∈ ds, c.isDigit = true) → digitsVal ds ≤ 65535 →
        parsePortLine (ws₁ ++ (portMarker ++ (ds ++ ws₂))) = some (digitsVal ds)) ∧
    (∀ (st : SupState) (l : List Char),
        parsePortLine l = none → readerUpdate st l = st) := by
  constructor
  · intro ws₁ ws₂ ds h₁ h₂ hne hds hv
    obtain ⟨d, t, hdt, hd⟩ : ∃ d t, ds.reverse = d :: t ∧ d ∈ ds := by
      cases hr : ds.reverse with
      | nil => exact absurd (List.reverse_eq_nil_iff.mp hr) hne
      | cons d t =>
        refine ⟨d, t, rfl, ?_⟩
        rw [← List.mem_reverse, hr]
        exact List.mem_cons_self d t
    have hstep1 :
        (ws₁ ++ (portMarker ++ (ds ++ ws₂))).dropWhile isWS =
          portMarker ++ (ds ++ ws₂) := by
      rw [dropWhile_append_of_forall h₁]
      exact dropWhile_cons_of_false (by decide)
    have hstep2 :
        (portMarker ++ (ds ++ ws₂)).reverse.dropWhile isWS =
          ds.reverse ++ portMarker.reverse := by
      rw [List.reverse_append, List.reverse_append, List.append_assoc]
      rw [dropWhile_append_of_forall fun c hc => h₂ c (List.mem_reverse.mp hc)]
      rw [hdt, List.cons_append]
      exact dropWhile_cons_of_false (not_ws_of_digit (hds d hd))
    have htrim : trimChars (ws₁ ++ (portMarker ++ (ds ++ ws₂))) = portMarker ++ ds := by
      unfold trimChars
      rw [hstep1, hstep2, List.reverse_append, List.reverse_reverse,
        List.reverse_reverse]
    have hemp : ds.isEmpty = false := by
      cases ds with
      | nil => exact absurd rfl hne
      | cons a l => rfl
    have hall : ds.all Char.isDigit = true := List.all_eq_true.mpr hds
    unfold parsePortLine
    rw [htrim, take5_marker, drop5_marker, if_pos rfl, hemp, hall]
    simp [hv]
  · intro st l h
    unfold readerUpdate
    rw [h]

/-- Witness for C1 at the line "  PORT:8080 " and at a noise line. -/
theorem c1_port_line_parsing_witness :
    parsePortLine ([' ', ' '] ++ (portMarker ++ (['8', '0', '8', '0'] ++ [' ']))) =
      some (digitsVal ['8', '0', '8', '0']) ∧
    readerUpdate initState ['n', 'o'] = initState :=
  ⟨c1_port_line_parsing.1 [' ', ' '] [' '] ['8', '0', '8', '0']
      (by decide) (by decide) (by decide) (by decide) (by decide),
   c1_port_line_parsing.2 initState ['n', 'o'] (by decide)⟩


theorem restartPolicy_count_le {st : SupState} (pid : Nat) (o : LaunchOutcome)
    (h : st.restartCount ≤ 5) : (restartPolicy st pid o).1.restartCount ≤ 5 := by
  unfold restartPolicy
  by_cases hc : st.restartCount + 1 > restartCeiling
  · rw [if_pos hc]
    exact h
  · rw [if_neg hc]
    have h5 : st.restartCount + 1 ≤ 5 := by
      simp only [restartCeiling, gt_iff_lt, not_lt] at hc
      exact hc
    cases o <;> exact h5

theorem restartCount_le_of_step {st : SupState} (e : Event) (h : st.restartCount ≤ 5) :
    (step st e).1.restartCount ≤ 5 := by
  cases e with
  | start pid o => cases o <;> exact h
  | procExit =>
    by_cases hh : st.handles.isEmpty <;> simp only [step, hh, if_pos, if_neg,
      Bool.false_eq_true, if_false, if_true] <;> exact h
  | tick pid o =>
    simp only [step, healthTick]
    by_cases hf : st.failed = true
    · simp only [hf, if_true]
      exact h
    · simp only [hf, Bool.false_eq_true, if_false]
      by_cases hh : st.handles.isEmpty = true
      · simp only [hh, if_true]
        exact h
      · simp only [hh, Bool.false_eq_true, if_false]
        by_cases ha : st.alive = true
        · simp only [ha, if_true]
          exact h
        · simp only [ha, Bool.false_eq_true, if_false]
          by_cases hp : st.port.isSome = true
          · simp only [hp, if_true]
            exact restartPolicy_count_le pid o (by simp)
          · simp only [hp, Bool.false_eq_true, if_false]
            exact restartPolicy_count_le pid o h
  | stop => exact h

theorem restartCount_le_runEvents (t : List Event) : (runEvents t).restartCount ≤ 5 := by
  suffices h : ∀ st : SupState, st.restartCount ≤ 5 →
      (t.foldl (fun s e => (step s e).1) st).restartCount ≤ 5 by
    exact h initState (by decide)
  induction t with
  | nil => exact fun st h => h
  | cons e rest ih => exact fun st h => ih _ (restartCount_le_of_step e h)

/-- C2: in every reachable state the restart counter is at most 5; a
restart whose incremented counter would exceed 5 returns `LimitExceeded`,
spawns nothing and only marks the episode failed; a failed episode
ignores every further health tick (no more automatic restarts); and on
the concrete startup crash loop the sixth consecutive crash yields
`LimitExceeded` with no spawn attempt. -/
theorem c2_restart_ceiling :
    (∀ st : SupState, Reachable st → st.restartCount ≤ 5) ∧
    (∀ (st : SupState) (pid : Nat) (o : LaunchOutcome),
        st.restartCount + 1 > 5 →
        (restartPolicy st pid o).2.result = some (.err .limitExceeded) ∧
        (restartPolicy st pid o).2.spawned = [] ∧
        (restartPolicy st pid o).1 = { st with failed := true }) ∧
    (∀ (st : SupState) (pid : Nat) (o : LaunchOutcome),
        st.failed = true → step st (.tick pid o) = (st, noEffects)) ∧
    ((step (runEvents crashLoopTrace) (.tick 7 .handshakeTimeout)).2.result =
        some (.err .limitExceeded) ∧
      (step (runEvents crashLoopTrace) (.tick 7 .handshakeTimeout)).2.spawned = []) := by
  refine ⟨?_, ?_, ?_, by decide⟩
  · rintro st ⟨t, rfl⟩
    exact restartCount_le_runEvents t
  · intro st pid o h
    have hc : st.restartCount + 1 > restartCeiling := by
      simpa [restartCeiling] using h
    unfold restartPolicy
    rw [if_pos hc]
    exact ⟨rfl, rfl, rfl⟩
  · intro st pid o h
    simp only [step, healthTick, h, if_true]

/-- Witness for C2 at the initial state, a state at the ceiling, and a
terminally failed state. -/
theorem c2_restart_ceiling_witness :
    initState.restartCount ≤ 5 ∧
    (restartPolicy exFull 1 .handshakeTimeout).2.result = some (.err .limitExceeded) ∧
    (restartPolicy exFull 1 .handshakeTimeout).2.spawned = [] ∧
    step exFailed (.tick 1 .handshakeTimeout) = (exFailed, noEffects) :=
  ⟨c2_restart_ceiling.1 initState ⟨[], rfl⟩,
   (c2_restart_ceiling.2.1 exFull 1 .handshakeTimeout (by decide)).1,
   (c2_restart_ceiling.2.1 exFull 1 .handshakeTimeout (by decide)).2.1,
   c2_restart_ceiling.2.2.1 exFailed 1 .handshakeTimeout (by decide)⟩

/-- C3: when a crash is detected in an episode that had reached confirmed
health (the port was set), the counter is reset to zero — the tick is
exactly the Restart Policy run from the reset-and-cleared state; and on
the concrete crash,crash,crash,(healthy),crash,crash,crash trace the
sixth overall crash does not hit the limit: a new worker is spawned and
the counter is only 3. -/
theorem c3_reset_on_confirmed_health :
    (∀ (st : SupState) (pid : Nat) (o : LaunchOutcome),
        st.failed = false → st.handles.isEmpty = false → st.alive = false →
        st.port.isSome = true →
        step st (.tick pid o) =
          restartPolicy
            { st with restartCount := 0, port := none, handshakeDone := false } pid o) ∧
    ((step (runEvents healthyCrashTrace) (.tick 7 .handshakeTimeout)).2.result ≠
        some (.err .limitExceeded) ∧
      (step (runEvents healthyCrashTrace) (.tick 7 .handshakeTimeout)).2.spawned = [7] ∧
      (step (runEvents healthyCrashTrace) (.tick 7 .handshakeTimeout)).1.restartCount = 3) := by
  refine ⟨?_, by decide⟩
  intro st pid o hf hh ha hp
  simp only [step, healthTick, hf, hh, ha, hp, Bool.false_eq_true, if_false, if_true]

/-- Witness for C3 at a crashed-after-health state. -/
theorem c3_reset_on_confirmed_health_witness :
    step exDeadHealthy (.tick 1 .handshakeTimeout) =
      restartPolicy
        { exDeadHealthy with restartCount := 0, port := none, handshakeDone := false }
        1 .handshakeTimeout :=
  c3_reset_on_confirmed_health.1 exDeadHealthy 1 .handshakeTimeout rfl rfl rfl rfl

theorem restartPolicy_port_of_not_ok {st : SupState} {o : LaunchOutcome} (pid : Nat)
    (ho : launchOk o = false) (hp : st.port = none) :
    (restartPolicy st pid o).1.port = none := by
  unfold restartPolicy
  by_cases hc : st.restartCount + 1 > restartCeiling
  · rw [if_pos hc]
    exact hp
  · rw [if_neg hc]
    cases o with
    | ok p => simp [launchOk] at ho
    | handshakeTimeout => rfl
    | spawnFail => rfl

theorem step_port_none {st : SupState} {e : Event} (hp : st.port = none)
    (he : eventLaunchOk e = false) : (step st e).1.port = none := by
  cases e with
  | start pid o =>
    cases o with
    | ok p => simp [eventLaunchOk, launchOk] at he
    | handshakeTimeout => rfl
    | spawnFail => rfl
  | procExit =>
    by_cases hh : st.handles.isEmpty = true <;>
      simp only [step, hh, Bool.false_eq_true, if_false, if_true] <;> exact hp
  | tick pid o =>
    have ho : launchOk o = false := he
    simp only [step, healthTick]
    by_cases hf : st.failed = true
    · simp only [hf, if_true]
      exact hp
    · simp only [hf, Bool.false_eq_true, if_false]
      by_cases hh : st.handles.isEmpty = true
      · simp only [hh, if_true]
        exact hp
      · simp only [hh, Bool.false_eq_true, if_false]
        by_cases ha : st.alive = true
        · simp only [ha, if_true]
          exact hp
        · simp only [ha, Bool.false_eq_true, if_false]
          have hps : st.port.isSome = false := by rw [hp]; rfl
          simp only [hps, Bool.false_eq_true, if_false]
          exact restartPolicy_port_of_not_ok pid ho rfl
  | stop => rfl

theorem port_none_foldl (t : List Event) :
    ∀ st : SupState, st.port = none → (∀ e ∈ t, eventLaunchOk e = false) →
      (t.foldl (fun s e => (step s e).1) st).port = none := by
  induction t with
  | nil => exact fun _ hp _ => hp
  | cons e rest ih =>
    intro st hp he
    exact ih _ (step_port_none hp (he e (List.mem_cons_self e rest)))
      fun e' h' => he e' (List.mem_cons_of_mem e h')

/-- C4: `currentPort()` is `NotReady` in the initial state and after any
event sequence containing no successful handshake; after a detected
crash whose restart attempt does not complete a new handshake it is
`NotReady` again; and immediately after a successful handshake — an
external `start()` or an in-limit restart — it returns exactly the
announced port. -/
theorem c4_current_port :
    currentPort initState = .err .notReady ∧
    (∀ t : List Event, (∀ e ∈ t, eventLaunchOk e = false) →
        currentPort (runEvents t) = .err .notReady) ∧
    (∀ (st : SupState) (pid : Nat) (o : LaunchOutcome),
        st.failed = false → st.handles.isEmpty = false → st.alive = false →
        launchOk o = false →
        currentPort (step st (.tick pid o)).1 = .err .notReady) ∧
    (∀ (st : SupState) (pid p : Nat),
        currentPort (step st (.start pid (.ok p))).1 = .ok p) ∧
    (∀ (st : SupState) (pid p : Nat),
        st.failed = false → st.handles.isEmpty = false → st.alive = false →
        (st.restartCount < 5 ∨ st.port.isSome = true) →
        currentPort (step st (.tick pid (.ok p))).1 = .ok p) := by
  refine ⟨rfl, ?_, ?_, fun st pid p => rfl, ?_⟩
  · intro t he
    have hp : (runEvents t).port = none := port_none_foldl t initState rfl he
    unfold currentPort
    rw [hp]
  · intro st pid o hf hh ha ho
    have hport : (step st (.tick pid o)).1.port = none := by
      simp only [step, healthTick, hf, hh, ha, Bool.false_eq_true, if_false]
      by_cases hp : st.port.isSome = true
      · simp only [hp, if_true]
        exact restartPolicy_port_of_not_ok pid ho rfl
      · simp only [hp, Bool.false_eq_true, if_false]
        exact restartPolicy_port_of_not_ok pid ho rfl
    unfold currentPort
    rw [hport]
  · intro st pid p hf hh ha hcond
    simp only [step, healthTick, hf, hh, ha, Bool.false_eq_true, if_false]
    rcases hcond with hlt | hp
    · by_cases hp : st.port.isSome = true
      · simp only [hp, if_true]
        unfold restartPolicy
        rw [if_neg (by simp only [restartCeiling, gt_iff_lt, not_lt]; omega)]
        rfl
      · simp only [hp, Bool.false_eq_true, if_false]
        unfold restartPolicy
        rw [if_neg (by simp only [restartCeiling, gt_iff_lt, not_lt]; omega)]
        rfl
    · simp only [hp, if_true]
      unfold restartPolicy
      rw [if_neg (by simp only [restartCeiling, gt_iff_lt, not_lt]; omega)]
      rfl

/-- Witness for C4: a failed-start trace, then a crashed state with a
failing and a succeeding relaunch, and a fresh successful start. -/
theorem c4_current_port_witness :
    currentPort (runEvents [.start 1 .handshakeTimeout]) = .err .notReady ∧
    currentPort (step exDead (.tick 2 .handshakeTimeout)).1 = .err .notReady ∧
    currentPort (step exDead (.start 2 (.ok 9090))).1 = .ok 9090 ∧
    currentPort (step exDead (.tick 2 (.ok 9090))).1 = .ok 9090 :=
  ⟨c4_current_port.2.1 [.start 1 .handshakeTimeout] (by decide),
   c4_current_port.2.2.1 exDead 2 .handshakeTimeout rfl rfl rfl rfl,
   c4_current_port.2.2.2.1 exDead 2 9090,
   c4_current_port.2.2.2.2 exDead 2 9090 rfl rfl rfl (Or.inl (by decide))⟩

theorem scan_none_of_no_valid {lines : List (Nat × List Char)}
    (h : ∀ q ∈ lines, q.1 ≤ handshakeDeadlineMs → parsePortLine q.2 = none) :
    handshakeScan lines = none := by
  induction lines with
  | nil => rfl
  | cons q rest ih =>
    obtain ⟨t, l⟩ := q
    simp only [handshakeScan]
    by_cases ht : t ≤ handshakeDeadlineMs
    · rw [if_pos ht, h (t, l) (List.mem_cons_self _ _) ht]
      exact ih fun q hq hqt => h q (List.mem_cons_of_mem _ hq) hqt
    · rw [if_neg ht]

/-- C5: when no line of the timed stdout of the worker stream that arrives
within the 10-second deadline parses as a valid port announcement —
including the empty stream, i.e. EOF — the launch outcome is
`HandshakeTimeout`: `start()` returns that error, the spawned process is
among the killed ones, and the owned process is not alive afterwards. -/
theorem c5_handshake_timeout :
    ∀ (st : SupState) (pid : Nat) (lines : List (Nat × List Char)),
      (∀ q ∈ lines, q.1 ≤ handshakeDeadlineMs → parsePortLine q.2 = none) →
      (stepStart st pid (outcomeOfLines lines)).2.result =
          some (.err .handshakeTimeout) ∧
      pid ∈ (stepStart st pid (outcomeOfLines lines)).2.killed ∧
      (stepStart st pid (outcomeOfLines lines)).1.alive = false := by
  intro st pid lines h
  have ho : outcomeOfLines lines = .handshakeTimeout := by
    unfold outcomeOfLines
    rw [scan_none_of_no_valid h]
  rw [ho]
  refine ⟨rfl, ?_, rfl⟩
  simp [stepStart]

/-- Witness for C5: a noise line in the deadline and a valid line past
the deadline. -/
theorem c5_handshake_timeout_witness :
    (stepStart initState 3
        (outcomeOfLines [(1, ['h', 'i']), (20000, portMarker ++ ['8'])])).2.result =
      some (.err .handshakeTimeout) ∧
    3 ∈ (stepStart initState 3
        (outcomeOfLines [(1, ['h', 'i']), (20000, portMarker ++ ['8'])])).2.killed ∧
    (stepStart initState 3
        (outcomeOfLines [(1, ['h', 'i']), (20000, portMarker ++ ['8'])])).1.alive = false :=
  c5_handshake_timeout initState 3 [(1, ['h', 'i']), (20000, portMarker ++ ['8'])]
    (by decide)

theorem supInv_stepStart (st : SupState) (pid : Nat) (o : LaunchOutcome) :
    SupInv (stepStart st pid o).1 := by
  cases o <;> simp [SupInv, stepStart]

theorem supInv_restartPolicy {st : SupState} (pid : Nat) (o : LaunchOutcome)
    (h1 : st.handles.length ≤ 1) (hp : st.port = none)
    (hd : st.handshakeDone = false) :
    SupInv (restartPolicy st pid o).1 := by
  unfold restartPolicy
  by_cases hc : st.restartCount + 1 > restartCeiling
  · rw [if_pos hc]
    unfold SupInv
    exact ⟨h1, by simp [hp, hd]⟩
  · rw [if_neg hc]
    exact supInv_stepStart _ pid o

theorem supInv_step {st : SupState} (e : Event) (h : SupInv st) : SupInv (step st e).1 := by
  cases e with
  | start pid o => exact supInv_stepStart st pid o
  | procExit =>
    by_cases hh : st.handles.isEmpty = true <;>
      simp only [step, hh, Bool.false_eq_true, if_false, if_true] <;> exact h
  | tick pid o =>
    simp only [step, healthTick]
    by_cases hf : st.failed = true
    · simp only [hf, if_true]
      exact h
    · simp only [hf, Bool.false_eq_true, if_false]
      by_cases hh : st.handles.isEmpty = true
      · simp only [hh, if_true]
        exact h
      · simp only [hh, Bool.false_eq_true, if_false]
        by_cases ha : st.alive = true
        · simp only [ha, if_true]
          exact h
        · simp only [ha, Bool.false_eq_true, if_false]
          by_cases hp : st.port.isSome = true <;>
            simp only [hp, Bool.false_eq_true, if_false, if_true] <;>
            exact supInv_restartPolicy _ _ h.1 rfl rfl
  | stop =>
    unfold SupInv
    exact ⟨by simp [step, stopSup], by simp [step, stopSup]⟩

theorem supInv_runEvents (t : List Event) : SupInv (runEvents t) := by
  suffices h : ∀ st : SupState, SupInv st →
      SupInv (t.foldl (fun s e => (step s e).1) st) by
    exact h initState (by unfold SupInv; decide)
  induction t with
  | nil => exact fun _ h => h
  | cons e rest ih => exact fun st h => ih _ (supInv_step e h)

/-- C6: in every reachable supervisor state at most one worker handle is
owned and a port is present exactly when a handle is owned whose
handshake completed; and every operation preserves this invariant. -/
theorem c6_state_invariant :
    (∀ st : SupState, Reachable st → SupInv st) ∧
    (∀ (st : SupState) (e : Event), SupInv st → SupInv (step st e).1) := by
  constructor
  · rintro st ⟨t, rfl⟩
    exact supInv_runEvents t
  · exact fun st e h => supInv_step e h

/-- Witness for C6 at the initial state and a process-exit step from a
healthy state. -/
theorem c6_state_invariant_witness :
    SupInv initState ∧ SupInv (step exRun .procExit).1 :=
  ⟨c6_state_invariant.1 initState ⟨[], rfl⟩,
   c6_state_invariant.2 exRun .procExit (by unfold SupInv; decide)⟩

/-- C7: stopping a supervisor that owns a worker kills exactly that
process (no graceful signal is ever sent), waits on it, and clears the
state: no handle remains, the process is not alive, and `currentPort()`
returns `NotReady`. -/
theorem c7_stop_teardown :
    ∀ (st : SupState) (w : Nat), st.handles = [w] →
      w ∈ (step st .stop).2.killed ∧
      (step st .stop).2.graceful = [] ∧
      w ∈ (step st .stop).2.waited ∧
      (step st .stop).1.handles = [] ∧
      (step st .stop).1.alive = false ∧
      currentPort (step st .stop).1 = .err .notReady := by
  intro st w hw
  refine ⟨?_, rfl, ?_, rfl, rfl, rfl⟩ <;>
    simp [step, stopSup, hw]

/-- Witness for C7 at a healthy running state owning handle 9. -/
theorem c7_stop_teardown_witness :
    9 ∈ (step exRun .stop).2.killed ∧
    (step exRun .stop).2.graceful = [] ∧
    9 ∈ (step exRun .stop).2.waited ∧
    (step exRun .stop).1.handles = [] ∧
    (step exRun .stop).1.alive = false ∧
    currentPort (step exRun .stop).1 = .err .notReady :=
  c7_stop_teardown exRun 9 rfl

/-- C8: `create_summary` does NOT return on every input — this run of 67
CJK chars (201 bytes of UTF-8, a single whitespace-free word) drives the
Rust byte slice `&text[..200]` onto a non-boundary byte index, a panic,
which the model renders as `none`. -/
theorem c8_create_summary_panics :
    create_summary (List.replicate 67 '中') = none := by decide

theorem fsf_aux (fid : String) (exl : List String) (fetched : List Article) :
    ∀ (acc : List Article) (n : Nat),
      fetched.foldl
        (fun acc a =>
          if exl.contains a.link then acc
          else (acc.1 ++ [{ a with feed_id := fid }], acc.2 + 1)) (acc, n) =
      (acc ++ (fetched.filter fun a => !exl.contains a.link).map
          (fun a => { a with feed_id := fid }),
        n + (fetched.filter fun a => !exl.contains a.link).length) := by
  induction fetched with
  | nil => intro acc n; simp
  | cons a rest ih =>
    intro acc n
    simp only [List.foldl_cons, List.filter_cons]
    by_cases hc : exl.contains a.link
    · simp only [hc, if_true, Bool.not_true, Bool.false_eq_true, if_false]
      exact ih acc n
    · simp only [hc, Bool.false_eq_true, if_false, Bool.not_false, if_true]
      rw [ih]
      simp only [Prod.mk.injEq, List.map_cons, List.length_cons]
      constructor
      · simp [List.append_assoc]
      · omega

/-- C9 amended: `fetch_and_save_feed` inserts exactly those fetched
articles whose link was not already in the table for the feed BEFORE the
call (the snapshot), stamped with the feed id and in fetch order, and
returns their number — links already present before the call are never
inserted, but duplicate links inside one fetched batch are each inserted
and counted. -/
theorem c9_snapshot_dedup (table : List Article) (fid : String)
    (fetched : List Article) :
    fetch_and_save_feed table fid fetched =
      (table ++ (fetched.filter
            fun a => !(existingLinks table fid).contains a.link).map
          (fun a => { a with feed_id := fid }),
        (fetched.filter
            fun a => !(existingLinks table fid).contains a.link).length) := by
  unfold fetch_and_save_feed
  rw [fsf_aux fid (existingLinks table fid) fetched table 0]
  simp

/-- C9 counterexample: with an empty table and a fetched batch holding
the same link twice, the second insertion happens although its link is
already in the articles table for that feed by then — the final table
holds the link twice for feed "f" and the count is 2, not 1. -/
theorem c9_counterexample :
    ¬ (((fetch_and_save_feed [] "f" [exArt, exArt]).1.map fun a => a.link).Nodup) ∧
    ((fetch_and_save_feed [] "f" [exArt, exArt]).1.map fun a => (a.feed_id, a.link)) =
      [("f", "L"), ("f", "L")] ∧
    (fetch_and_save_feed [] "f" [exArt, exArt]).2 = 2 := by decide

theorem mem_insGe {x a : Article} {l : List Article} :
    x ∈ insGe a l ↔ x = a ∨ x ∈ l := by
  induction l with
  | nil => simp [insGe]
  | cons b bs ih =>
    simp only [insGe]
    by_cases h : pdGe a b
    · simp [h]
    · simp only [h, Bool.false_eq_true, if_false, List.mem_cons, ih]
      tauto

theorem mem_sortDesc {x : Article} {l : List Article} :
    x ∈ sortDesc l ↔ x ∈ l := by
  induction l with
  | nil => simp [sortDesc]
  | cons a rest ih => simp [sortDesc, mem_insGe, ih]

/-- C10 amended: every article returned by `get_articles` satisfies the
requested filters — feed id equal to the requested one, `is_read = 0`
under the "unread" filter, `is_starred = 1` under the "starred" filter;
any other filter string builds the same (empty) condition list as no
filter; and when `limit` is non-negative at most `limit` articles are
returned (a negative limit imposes no bound, as SQLite treats a negative
LIMIT as unlimited). -/
theorem c10_filters_and_limit :
    (∀ (table : List Article) (fid filt : Option String) (limit offs : Int)
        (a : Article), a ∈ get_articles table fid filt limit offs →
        (∀ f, fid = some f → a.feed_id = f) ∧
        (filt = some "unread" → a.is_read = 0) ∧
        (filt = some "starred" → a.is_starred = 1)) ∧
    (∀ (fid : Option String) (s : String), s ≠ "unread" → s ≠ "starred" →
        conds fid (some s) = conds fid none) ∧
    (∀ (table : List Article) (fid filt : Option String) (limit offs : Int),
        0 ≤ limit →
        ((get_articles table fid filt limit offs).length : Int) ≤ limit) := by
  refine ⟨?_, ?_, ?_⟩
  · intro table fid filt limit offs a ha
    have hm : matchesRow fid filt a = true := by
      have h1 : a ∈ sortDesc (table.filter (matchesRow fid filt)) := by
        unfold get_articles at ha
        by_cases hl : limit < 0
        · rw [if_pos hl] at ha
          exact List.mem_of_mem_drop ha
        · rw [if_neg hl] at ha
          exact List.mem_of_mem_drop (List.mem_of_mem_take ha)
      exact (List.mem_filter.mp (mem_sortDesc.mp h1)).2
    refine ⟨?_, ?_, ?_⟩
    · intro f hf
      subst hf
      have hc := List.all_eq_true.mp hm (Cond.feedEq f) (by simp [conds])
      simpa [evalCond] using hc
    · intro hf
      subst hf
      have hc := List.all_eq_true.mp hm Cond.readZero
        (by cases fid <;> simp [conds])
      simpa [evalCond] using hc
    · intro hf
      subst hf
      have hc := List.all_eq_true.mp hm Cond.starredOne
        (by cases fid <;> simp [conds])
      simpa [evalCond] using hc
  · intro fid s hs1 hs2
    cases fid <;> simp [conds, hs1, hs2]
  · intro table fid filt limit offs hl
    unfold get_articles
    rw [if_neg (by omega : ¬ limit < 0)]
    calc (((sortDesc (table.filter (matchesRow fid filt))).drop
            offs.toNat).take limit.toNat).length ≤ (limit.toNat : Int) := by
          exact_mod_cast List.length_take_le _ _
      _ = limit := Int.toNat_of_nonneg hl

/-- C10 counterexample: the unconditional claim that "at most `limit`
articles are returned" fails for a negative limit — with one stored
article and `limit = -1` (SQLite: no bound) one article is returned, and
1 is not at most -1. -/
theorem c10_counterexample :
    ¬ (((get_articles [exArt2] none none (-1) 0).length : Int) ≤ -1) := by decide

/-- Witness for C10 on a one-row table under feed and unread filters. -/
theorem c10_filters_and_limit_witness :
    exArt2.feed_id = "f" ∧ exArt2.is_read = 0 ∧
    conds none (some "all") = conds none none ∧
    ((get_articles [exArt2] (some "f") (some "unread") 10 0).length : Int) ≤ 10 := by
  have hmem : exArt2 ∈ get_articles [exArt2] (some "f") (some "unread") 10 0 := by
    decide
  obtain ⟨h1, h2, _⟩ :=
    c10_filters_and_limit.1 [exArt2] (some "f") (some "unread") 10 0 exArt2 hmem
  exact ⟨h1 "f" rfl, h2 rfl,
    c10_filters_and_limit.2.1 none "all" (by decide) (by decide),
    c10_filters_and_limit.2.2 [exArt2] (some "f") (some "unread") 10 0 (by decide)⟩

end RssReader
